import Mathlib

/-!
Verification development for the run-out calculator (src/app.py).

The computational core of the program is the function plot_runout together
with its helpers textarea_to_list, minimum_distance and merge.  We give a
shallow embedding of that core over the rationals: the Python floats are
modelled by elements of the field of rationals (all program inputs are
decimal numbers rounded to one decimal place, so every concrete value of
interest is rational), coordinate pairs by pairs of rationals, and the
mutable parallel coordinate lists by Lean lists, updated functionally.

The geometric primitives that the program obtains from its external
geometry kernel (segment intersection, line splitting, line merging and
polygon area) are not part of the repository; following the design notes
of the specification they are modelled directly as segment-by-segment
computations, and each such definition carries a comment saying so.
-/

namespace RunoutCalc

/-- A planar point, the pair of an x and a y coordinate. -/
abbrev Pt : Type := ℚ × ℚ

/-- Default point used for out-of-range list reads (the Python code would
raise there; the claims only apply those reads inside bounds). -/
def d0 : Pt := (0, 0)

/-- Cross product term of two points, the summand of the shoelace formula
for consecutive ring vertices. -/
def cross2 (u v : Pt) : ℚ := u.1 * v.2 - u.2 * v.1

/-- Squared Euclidean distance between coordinates.  The source computes
((x0-x)**2+(y0-y)**2)**0.5; the square root is strictly monotone and
injective on nonnegative reals, so comparing squared distances yields the
same minima and the same exact ties as comparing the distances
themselves.  We therefore work with the squares, which keeps every
definition inside the rationals. -/
def dist2 (x0 y0 x y : ℚ) : ℚ := (x0 - x) * (x0 - x) + (y0 - y) * (y0 - y)

/-- Minimum of two rationals, written out so that the kernel can
evaluate it on concrete inputs. -/
def rmin (a b : ℚ) : ℚ := if a ≤ b then a else b

/-- The Python builtin min over a list of numbers (leftmost minimal value;
junk value 0 on the empty list, where Python would raise). -/
def listMin : List ℚ → ℚ
  | [] => 0
  | [a] => a
  | a :: b :: t => rmin a (listMin (b :: t))

/-- Python list.index: index of the first occurrence of a value (junk
value = length when absent, where Python would raise). -/
def idxOf (v : ℚ) : List ℚ → Nat
  | [] => 0
  | a :: t => if a = v then 0 else idxOf v t + 1

/-- Source function minimum_distance (src/app.py, lines 45-47): index of
the point of the profile (given as parallel coordinate lists, zipped as
in the source) closest to (x0, y0); dis.index(min(dis)) returns the first
index achieving the minimum. -/
def minimum_distance (x0 y0 : ℚ) (xl yl : List ℚ) : Nat :=
  let dis := (xl.zip yl).map (fun p => dist2 x0 y0 p.1 p.2)
  idxOf (listMin dis) dis

/-- Source function merge (src/app.py, lines 56-58): tuple(zip(l1, l2)). -/
def merge {α β : Type} (list1 : List α) (list2 : List β) : List (α × β) :=
  list1.zip list2

/-- Python slicing l[::2] (every other element starting at index 0). -/
def everyOther : List ℚ → List ℚ
  | [] => []
  | [a] => [a]
  | a :: _ :: t => a :: everyOther t

/-- Source function textarea_to_list (src/app.py, lines 37-42), modelled
at its numeric boundary: the tab/newline splitting and float conversion
turn the text into the list of its numeric values in order (list0_float);
the function then returns the slices list0_float[::2] and
list0_float[1::2]. -/
def textarea_to_list (list0_float : List ℚ) : List ℚ × List ℚ :=
  (everyOther list0_float, everyOther list0_float.tail)

/-- Index of the vertex of the profile sp nearest to the point q: the
call minimum_distance(x0, y0, sp_x, sp_y) of the source, with the two
parallel coordinate lists recovered from the point list. -/
def nearestIdx (q : Pt) (sp : List Pt) : Nat :=
  minimum_distance q.1 q.2 (sp.map Prod.fst) (sp.map Prod.snd)

/-- The snap step of plot_runout (src/app.py, lines 158-168), performed
in source order: the first vertex of the failure surface is overwritten
with the nearest profile vertex, then the last vertex of the updated
list is overwritten with its nearest profile vertex.  Returns the
updated failure surface and the two matched indices. -/
def snapFS (sp fs : List Pt) : List Pt × Nat × Nat :=
  let i_start := nearestIdx (fs.headD d0) sp
  let fs1 := fs.set 0 (sp.getD i_start d0)
  let i_end := nearestIdx (fs1.getLastD d0) sp
  let fs2 := fs1.set (fs1.length - 1) (sp.getD i_end d0)
  (fs2, i_start, i_end)

/-- Index of the first vertex of a polyline equal to a given point. -/
def findPt (p : Pt) : List Pt → Option Nat
  | [] => none
  | a :: t => if a = p then some 0 else (findPt p t).map (· + 1)

/-- Modelled from the spec (and the external shapely primitive
shapely.ops.split, absent from src/): splitting a polyline at a point
that is one of its vertices yields the sub-polyline up to that vertex
and the sub-polyline from that vertex on, both containing the split
vertex.  When the point is the first vertex, the last vertex, or not a
vertex at all, shapely returns a single piece and the two-element tuple
unpacking in the source raises; that is the none case here. -/
def splitAtPoint (p : Pt) (l : List Pt) : Option (List Pt × List Pt) :=
  match findPt p l with
  | none => none
  | some j =>
    if 0 < j ∧ j + 1 < l.length then some (l.take (j + 1), l.drop j) else none

/-- Modelled from the spec (and the external shapely primitive
shapely.ops.linemerge, absent from src/): two polylines that share an
endpoint are concatenated into one, reorienting a piece when needed;
polylines sharing no endpoint do not merge (none). -/
def joinTwo (a b : List Pt) : Option (List Pt) :=
  if a.getLast? = b.head? then some (a ++ b.tail)
  else if a.getLast? = b.getLast? then some (a ++ b.reverse.tail)
  else if a.head? = b.head? then some (a.reverse ++ b.tail)
  else if a.head? = b.getLast? then some (b ++ a.tail)
  else none

/-- linemerge over an ordered list of polylines: fold of joinTwo. -/
def linemerge : List (List Pt) → Option (List Pt)
  | [] => none
  | a :: rest => rest.foldlM joinTwo a

/-- Stage diagnostics of the profile combiner.  In the source both are
anonymous exceptions caught by the bare except of the failure volume
block; the specification names them SnapMismatchError and MergeError. -/
inductive CombineErr
  | SplitError
  | MergeError
deriving DecidableEq

/-- Result of the failure volume block of plot_runout: the snapped
failure surface, the two matched indices, the list of polylines to
combine, the failed sub-segment of the profile, the combined profile
and the failure volume ring. -/
structure CombineOut where
  fs2 : List Pt
  i1 : Nat
  i2 : Nat
  pieces : List (List Pt)
  sp_lsf : List Pt
  combined : List Pt
  fvRing : List Pt
deriving DecidableEq

/-- The failure volume block of plot_runout (src/app.py, lines 156-206):
snap the failure surface onto the profile, classify by comparing the
coordinates of the matched vertices with the first and last profile
vertex (bool1, bool2 of the source), split the profile accordingly,
combine the pieces when projection is requested, and build the failure
volume ring from the failed sub-segment and the failure surface. -/
def combiner (sp fs : List Pt) (project : Bool) : Except CombineErr CombineOut :=
  let s := snapFS sp fs
  let fs2 := s.1
  let i1 := s.2.1
  let i2 := s.2.2
  let ip1 := sp.getD i1 d0
  let ip2 := sp.getD i2 d0
  let bool1 := ip1 = sp.headD d0
  let bool2 := ip2 = sp.getLastD d0
  let branch : Option (List Pt × List (List Pt)) :=
    if bool1 ∧ bool2 then some (sp, [fs2])
    else if bool1 then
      match splitAtPoint ip2 sp with
      | some pr => some (pr.1, [fs2, pr.2])
      | none => none
    else if bool2 then
      match splitAtPoint ip1 sp with
      | some pr => some (pr.2, [pr.1, fs2])
      | none => none
    else
      match splitAtPoint ip1 sp with
      | some pr =>
        match splitAtPoint ip2 pr.2 with
        | some qr => some (qr.1, [pr.1, fs2, qr.2])
        | none => none
      | none => none
  match branch with
  | none => Except.error CombineErr.SplitError
  | some bp =>
    let combinedO : Option (List Pt) := if project then linemerge bp.2 else some sp
    match combinedO with
    | none => Except.error CombineErr.MergeError
    | some combined =>
      match joinTwo bp.1 fs2 with
      | none => Except.error CombineErr.MergeError
      | some ring => Except.ok ⟨fs2, i1, i2, bp.2, bp.1, combined, ring⟩

/-- The combined profile actually used downstream (src/app.py, lines
196-211): the merged profile when the failure volume block succeeds,
the raw slope profile when it fails. -/
def combinedProfile (sp fs : List Pt) (project : Bool) : List Pt :=
  match combiner sp fs project with
  | Except.ok o => o.combined
  | Except.error _ => sp

/-- Maximum of two rationals, kernel-friendly companion of rmin. -/
def rmax (a b : ℚ) : ℚ := if a ≤ b then b else a

/-- Close a ring implicitly: append the first vertex when the last
vertex differs from it (the Polygon constructor of the external kernel
does this; spec section 4.4). -/
def ringClose : List Pt → List Pt
  | [] => []
  | a :: t => if (a :: t).getLast? = some a then a :: t else (a :: t) ++ [a]

/-- Sum of the shoelace terms over consecutive vertices. -/
def shoelaceSum : List Pt → ℚ
  | a :: b :: t => cross2 a b + shoelaceSum (b :: t)
  | _ => 0

/-- Modelled from the spec (section 4.4) and the external kernel
function Polygon(...).area, absent from src/: absolute value of the
shoelace sum over the implicitly closed ring, halved.  This is the
value the external kernel computes for valid and for self-intersecting
rings alike. -/
def polyArea (l : List Pt) : ℚ := |shoelaceSum (ringClose l)| / 2

/-- Modelled from the spec (sections 4.3 and 9, replacing the external
kernel): intersection of two segments by the standard parametric test.
Returns the parameter t along the first segment together with the
intersection point; parallel and colinear segment pairs yield no
intersection point. -/
def segInter (a b c d : Pt) : Option (ℚ × Pt) :=
  let r : Pt := (b.1 - a.1, b.2 - a.2)
  let s : Pt := (d.1 - c.1, d.2 - c.2)
  let den := cross2 r s
  if den = 0 then none
  else
    let t := cross2 (c.1 - a.1, c.2 - a.2) s / den
    let u := cross2 (c.1 - a.1, c.2 - a.2) r / den
    if 0 ≤ t ∧ t ≤ 1 ∧ 0 ≤ u ∧ u ≤ 1 then
      some (t, (a.1 + t * r.1, a.2 + t * r.2))
    else none

/-- The consecutive segments of the implicitly closed ring. -/
def segsOf (l : List Pt) : List (Pt × Pt) := (ringClose l).zip (ringClose l).tail

/-- A ring is self-intersecting when two of its segments that are not
cyclically adjacent meet in a point. -/
def ringSelfIntersects (l : List Pt) : Bool :=
  let ss := segsOf l
  let n := ss.length
  (List.range n).any fun i =>
    (List.range n).any fun j =>
      decide (i + 2 ≤ j) && !(decide (i = 0) && decide (j = n - 1)) &&
        (segInter (ss.getD i (d0, d0)).1 (ss.getD i (d0, d0)).2
          (ss.getD j (d0, d0)).1 (ss.getD j (d0, d0)).2).isSome

/-- The side on which the bund and the run-out are drawn. -/
inductive Direction
  | left
  | right
deriving DecidableEq

/-- Geometry entry mode of the application. -/
inductive GeomMode
  | manual
  | param
deriving DecidableEq

/-- The test repeated throughout plot_runout:
direction == right and manual == manual. -/
def rightManual : Direction → GeomMode → Bool
  | Direction.right, GeomMode.manual => true
  | _, _ => false

/-- Bund vertex list of plot_runout (src/app.py, lines 100-125).  The
parameter t37 stands for tan(37 degrees), an irrational constant kept
symbolic; base width = 2 h / tan 37.  With positive height the list is
[base corner, apex, far base corner]; with height zero it is the single
standoff point. -/
def bundPts (t37 standoff bund_height : ℚ) (dir : Direction) (mode : GeomMode)
    (sp0 : Pt) : List Pt :=
  let bund_width := 2 * bund_height / t37
  let b0 : Pt :=
    if rightManual dir mode then (standoff + sp0.1, sp0.2)
    else (-standoff + sp0.1, sp0.2)
  if 0 < bund_height then
    if rightManual dir mode then
      [b0, (b0.1 - (1 / 2) * bund_width, b0.2 + bund_height),
        (b0.1 - 1 * bund_width, b0.2)]
    else
      [b0, (b0.1 + (1 / 2) * bund_width, b0.2 + bund_height),
        (b0.1 + 1 * bund_width, b0.2)]
  else [b0]

/-- Start point of the run-out ray (src/app.py, lines 111-125): the
second bund vertex when the bund height is positive, the first (and
only) bund vertex otherwise. -/
def runoutOrigin (t37 standoff bund_height : ℚ) (dir : Direction) (mode : GeomMode)
    (sp0 : Pt) : Pt :=
  let b := bundPts t37 standoff bund_height dir mode sp0
  if 0 < bund_height then b.getD 1 d0 else b.getD 0 d0

/-- Direction mirroring of the run-out ray (src/app.py, line 217): the
source replaces the angle by 180 - angle for right-side manual input;
cos(180 - x) = -cos x and sin(180 - x) = sin x, so on the direction
cosine pair (c, s) this is (-c, s). -/
def rayMirror (dir : Direction) (mode : GeomMode) (c s : ℚ) : Pt :=
  if rightManual dir mode then (-c, s) else (c, s)

/-- Stage diagnostic of the run-out projector; in the source this is an
anonymous exception caught at line 242, named by the specification. -/
inductive RunoutErr
  | NoInterceptError
deriving DecidableEq

/-- All intersection points of the run-out segment from O to E with the
combined profile, segment by segment, each with its parameter t along
the ray (the parametric distance from O divided by the ray length). -/
def rayHits (O E : Pt) (C : List Pt) : List (ℚ × Pt) :=
  (C.zip C.tail).filterMap fun sg => segInter O E sg.1 sg.2

/-- Selection of the intersection point used downstream: the hit with
the smallest ray parameter, the earliest such hit on ties. -/
def firstHit : List (ℚ × Pt) → Option (ℚ × Pt)
  | [] => none
  | a :: t => some (t.foldl (fun b q => if q.1 < b.1 then q else b) a)

/-- Whether p lies on the segment from u to v. -/
def onSeg (u v p : Pt) : Bool :=
  decide (cross2 (v.1 - u.1, v.2 - u.2) (p.1 - u.1, p.2 - u.2) = 0) &&
    decide (rmin u.1 v.1 ≤ p.1) && decide (p.1 ≤ rmax u.1 v.1) &&
    decide (rmin u.2 v.2 ≤ p.2) && decide (p.2 ≤ rmax u.2 v.2)

/-- Index of the first segment of a list carrying the point p. -/
def segIdxAt (p : Pt) : List (Pt × Pt) → Option Nat
  | [] => none
  | sg :: t => if onSeg sg.1 sg.2 p then some 0 else (segIdxAt p t).map (· + 1)

/-- Pre-intersection sub-polyline: the combined profile up to the first
segment carrying the chosen intersection point, ended at that point
(the piece split(line_combined, line_runout)[0] of the source, with the
split placed at the chosen hit as the specification directs). -/
def preProfile (C : List Pt) (p : Pt) : List Pt :=
  match segIdxAt p (C.zip C.tail) with
  | some j => C.take (j + 1) ++ [p]
  | none => C ++ [p]

/-- Catch capacity ring (src/app.py, lines 233-238): the merge of the
pre-intersection profile with the polyline [far bund corner, origin,
intersection] (bunded) or [origin, intersection] (unbunded); both
pieces end at the intersection point, so the merge appends the reversed
second piece. -/
def buildCatchRing (C : List Pt) (p : Pt) (bund_height : ℚ) (bPts : List Pt)
    (O : Pt) : List Pt :=
  let lp := preProfile C p
  if 0 < bund_height then lp ++ [O, bPts.getD 2 d0] else lp ++ [O]

/-- The catch capacity block of plot_runout (src/app.py, lines 213-240):
cast the run-out ray of length L from the origin O in direction (c, s),
intersect it with the combined profile, select the first hit, and build
the catch capacity ring; with no hit the stage fails with
NoInterceptError. -/
def runoutProjector (C : List Pt) (bund_height : ℚ) (bPts : List Pt) (O : Pt)
    (c s L : ℚ) : Except RunoutErr (List Pt) :=
  let E : Pt := (O.1 + L * c, O.2 + L * s)
  match firstHit (rayHits O E C) with
  | none => Except.error RunoutErr.NoInterceptError
  | some tp => Except.ok (buildCatchRing C tp.2 bund_height bPts O)

/-- Stage wrapper (src/app.py, lines 214-243): a failing projector is
caught and the catch capacity polygon is simply omitted. -/
def catchStage (C : List Pt) (bund_height : ℚ) (bPts : List Pt) (O : Pt)
    (c s L : ℚ) : Option (List Pt) :=
  (runoutProjector C bund_height bPts O c s L).toOption

/-- Distance list of the source (the list dis of minimum_distance),
expressed over the point list. -/
def dList (q : Pt) (sp : List Pt) : List ℚ :=
  sp.map fun p => dist2 q.1 q.2 p.1 p.2

/-! ### Lemmas about the nearest-vertex search -/

lemma rmin_le_left (a b : ℚ) : rmin a b ≤ a := by
  unfold rmin; split <;> [exact le_refl a; exact le_of_not_le (by assumption)]

lemma rmin_le_right (a b : ℚ) : rmin a b ≤ b := by
  unfold rmin; split <;> [assumption; exact le_refl b]

lemma rmin_eq_or (a b : ℚ) : rmin a b = a ∨ rmin a b = b := by
  unfold rmin; split <;> simp

lemma listMin_le {l : List ℚ} : ∀ x ∈ l, listMin l ≤ x := by
  induction l using listMin.induct with
  | case1 => simp
  | case2 a => simp [listMin]
  | case3 a b t ih =>
    intro x hx
    rcases List.mem_cons.mp hx with rfl | hx
    · exact rmin_le_left _ _
    · exact le_trans (rmin_le_right _ _) (ih x hx)

lemma listMin_mem {l : List ℚ} (h : l ≠ []) : listMin l ∈ l := by
  induction l using listMin.induct with
  | case1 => exact absurd rfl h
  | case2 a => simp [listMin]
  | case3 a b t ih =>
    show rmin a (listMin (b :: t)) ∈ a :: b :: t
    rcases rmin_eq_or a (listMin (b :: t)) with he | he
    · rw [he]; exact List.mem_cons_self _ _
    · rw [he]; exact List.mem_cons_of_mem _ (ih (by simp))

lemma idxOf_lt_length {v : ℚ} {l : List ℚ} (h : v ∈ l) : idxOf v l < l.length := by
  induction l with
  | nil => cases h
  | cons a t ih =>
    by_cases ha : a = v
    · simp [idxOf, ha]
    · rcases List.mem_cons.mp h with rfl | hv
      · exact absurd rfl ha
      · simpa [idxOf, ha, Nat.succ_lt_succ_iff] using ih hv

lemma getD_idxOf {v : ℚ} {l : List ℚ} (h : v ∈ l) : l.getD (idxOf v l) 0 = v := by
  induction l with
  | nil => cases h
  | cons a t ih =>
    by_cases ha : a = v
    · simp [idxOf, ha]
    · rcases List.mem_cons.mp h with rfl | hv
      · exact absurd rfl ha
      · simpa [idxOf, ha] using ih hv

lemma getD_lt_idxOf {v : ℚ} {l : List ℚ} :
    ∀ j, j < idxOf v l → l.getD j 0 ≠ v := by
  induction l with
  | nil => intro j hj; simp [idxOf] at hj
  | cons a t ih =>
    intro j hj
    by_cases ha : a = v
    · simp [idxOf, ha] at hj
    · cases j with
      | zero => simpa using ha
      | succ j =>
        simp only [idxOf, if_neg ha, Nat.succ_lt_succ_iff] at hj
        simpa using ih j hj

lemma zip_self_eq (l : List Pt) : (l.map Prod.fst).zip (l.map Prod.snd) = l := by
  induction l with
  | nil => rfl
  | cons a t ih => simp [ih]

lemma nearestIdx_eq (q : Pt) (sp : List Pt) :
    nearestIdx q sp = idxOf (listMin (dList q sp)) (dList q sp) := by
  unfold nearestIdx minimum_distance dList
  rw [zip_self_eq]

lemma dList_getD {q : Pt} {sp : List Pt} {j : Nat} (hj : j < sp.length) :
    (dList q sp).getD j 0 = dist2 q.1 q.2 (sp.getD j d0).1 (sp.getD j d0).2 := by
  unfold dList
  rw [List.getD_eq_getElem?_getD, List.getD_eq_getElem?_getD,
    List.getElem?_map, List.getElem?_eq_getElem hj]
  rfl

lemma dList_length (q : Pt) (sp : List Pt) : (dList q sp).length = sp.length := by
  simp [dList]

/-- The nearest-vertex search returns a valid index whose distance to q
is minimal, and every strictly earlier index has strictly larger
distance (lowest-index tie breaking). -/
lemma nearestIdx_spec (q : Pt) (sp : List Pt) (h : sp ≠ []) :
    nearestIdx q sp < sp.length ∧
      (∀ j, j < sp.length →
        dist2 q.1 q.2 (sp.getD (nearestIdx q sp) d0).1 (sp.getD (nearestIdx q sp) d0).2 ≤
          dist2 q.1 q.2 (sp.getD j d0).1 (sp.getD j d0).2) ∧
      (∀ j, j < nearestIdx q sp →
        dist2 q.1 q.2 (sp.getD (nearestIdx q sp) d0).1 (sp.getD (nearestIdx q sp) d0).2 <
          dist2 q.1 q.2 (sp.getD j d0).1 (sp.getD j d0).2) := by
  have hd : dList q sp ≠ [] := by
    unfold dList
    simpa using h
  have hmem : listMin (dList q sp) ∈ dList q sp := listMin_mem hd
  have hlt : nearestIdx q sp < sp.length := by
    rw [nearestIdx_eq, ← dList_length q sp]
    exact idxOf_lt_length hmem
  have hval : (dList q sp).getD (nearestIdx q sp) 0 = listMin (dList q sp) := by
    rw [nearestIdx_eq]
    exact getD_idxOf hmem
  refine ⟨hlt, ?_, ?_⟩
  · intro j hj
    rw [← dList_getD hlt, ← dList_getD hj, hval]
    refine listMin_le _ ?_
    have := List.getD_eq_getElem (dList q sp) 0 (by rwa [dList_length])
    rw [this]
    exact List.getElem_mem _
  · intro j hj
    have hjlen : j < sp.length := lt_trans hj hlt
    have hne : (dList q sp).getD j 0 ≠ listMin (dList q sp) :=
      getD_lt_idxOf (v := listMin (dList q sp)) (l := dList q sp) j
        (by rwa [← nearestIdx_eq])
    have hle : listMin (dList q sp) ≤ (dList q sp).getD j 0 := by
      refine listMin_le _ ?_
      have := List.getD_eq_getElem (dList q sp) 0 (by rwa [dList_length])
      rw [this]
      exact List.getElem_mem _
    rw [← dList_getD hlt, ← dList_getD hjlen, hval]
    exact lt_of_le_of_ne hle (fun he => hne he.symm)

/-! ### Lemmas about the snap step -/

lemma set_zero_getLastD {fs : List Pt} (h : 2 ≤ fs.length) (v : Pt) :
    (fs.set 0 v).getLastD d0 = fs.getLastD d0 := by
  rw [List.getLastD_eq_getLast?, List.getLastD_eq_getLast?,
    List.getLast?_eq_getElem?, List.getLast?_eq_getElem?, List.length_set,
    List.getElem?_set_ne (by omega)]

lemma snapFS_i1 (sp fs : List Pt) :
    (snapFS sp fs).2.1 = nearestIdx (fs.headD d0) sp := rfl

lemma snapFS_i2 {sp fs : List Pt} (h : 2 ≤ fs.length) :
    (snapFS sp fs).2.2 = nearestIdx (fs.getLastD d0) sp := by
  simp only [snapFS]
  rw [set_zero_getLastD h]

lemma snapFS_fst (sp fs : List Pt) :
    (snapFS sp fs).1 =
      (fs.set 0 (sp.getD (snapFS sp fs).2.1 d0)).set (fs.length - 1)
        (sp.getD (snapFS sp fs).2.2 d0) := by
  simp [snapFS, List.length_set]

lemma snapFS_length (sp fs : List Pt) : (snapFS sp fs).1.length = fs.length := by
  simp [snapFS]

lemma snapFS_interior (sp fs : List Pt) {i : Nat} (h0 : 0 < i)
    (h1 : i + 1 < fs.length) : (snapFS sp fs).1[i]? = fs[i]? := by
  rw [snapFS_fst, List.getElem?_set_ne (by omega), List.getElem?_set_ne (by omega)]

lemma snapFS_first (sp fs : List Pt) (h : 2 ≤ fs.length) :
    (snapFS sp fs).1[0]? = some (sp.getD (snapFS sp fs).2.1 d0) := by
  rw [snapFS_fst, List.getElem?_set_ne (by omega),
    List.getElem?_set_eq_of_lt _ (by omega)]

lemma snapFS_last (sp fs : List Pt) (h : 1 ≤ fs.length) :
    (snapFS sp fs).1[fs.length - 1]? = some (sp.getD (snapFS sp fs).2.2 d0) := by
  rw [snapFS_fst, List.getElem?_set_eq_of_lt _ (by rw [List.length_set]; omega)]

lemma snapFS_head? (sp fs : List Pt) (h : 2 ≤ fs.length) :
    (snapFS sp fs).1.head? = some (sp.getD (snapFS sp fs).2.1 d0) := by
  rw [List.head?_eq_getElem?]
  exact snapFS_first sp fs h

lemma snapFS_getLast? (sp fs : List Pt) (h : 2 ≤ fs.length) :
    (snapFS sp fs).1.getLast? = some (sp.getD (snapFS sp fs).2.2 d0) := by
  rw [List.getLast?_eq_getElem?, snapFS_length]
  exact snapFS_last sp fs (by omega)

/-! ### Lemmas about splitting and merging polylines -/

lemma findPt_eq_of_nodup :
    ∀ {sp : List Pt}, sp.Nodup → ∀ {i : Nat}, i < sp.length →
      findPt (sp.getD i d0) sp = some i := by
  intro sp
  induction sp with
  | nil => intro _ i hi; simp at hi
  | cons a t ih =>
    intro hN i hi
    cases i with
    | zero => simp [findPt]
    | succ i =>
      have hit : i < t.length := by simpa using hi
      have hmem : (a :: t).getD (i + 1) d0 ∈ t := by
        rw [List.getD_cons_succ, List.getD_eq_getElem t d0 hit]
        exact List.getElem_mem _
      have hne : a ≠ (a :: t).getD (i + 1) d0 :=
        fun he => (List.nodup_cons.mp hN).1 (he ▸ hmem)
      rw [findPt, if_neg hne, List.getD_cons_succ,
        ih (List.nodup_cons.mp hN).2 hit]
      rfl

lemma splitAtPoint_spec {sp : List Pt} (hN : sp.Nodup) {i : Nat} (h0 : 0 < i)
    (h1 : i + 1 < sp.length) :
    splitAtPoint (sp.getD i d0) sp = some (sp.take (i + 1), sp.drop i) := by
  unfold splitAtPoint
  rw [findPt_eq_of_nodup hN (by omega)]
  simp [h0, h1]

lemma take_getLast? {sp : List Pt} {i : Nat} (hi : i < sp.length) :
    (sp.take (i + 1)).getLast? = some (sp.getD i d0) := by
  rw [List.getLast?_eq_getElem?, List.length_take]
  have hlen : min (i + 1) sp.length = i + 1 := by omega
  rw [hlen]
  simp only [Nat.add_sub_cancel]
  rw [List.getElem?_take, if_pos (by omega), List.getElem?_eq_getElem hi,
    List.getD_eq_getElem sp d0 hi]

lemma drop_head? {sp : List Pt} {i : Nat} (hi : i < sp.length) :
    (sp.drop i).head? = some (sp.getD i d0) := by
  rw [List.head?_eq_getElem?, List.getElem?_drop, Nat.add_zero,
    List.getElem?_eq_getElem hi, List.getD_eq_getElem sp d0 hi]

lemma eq_cons_of_head? {l : List Pt} {x : Pt} (h : l.head? = some x) :
    l = x :: l.tail := by
  cases l with
  | nil => simp at h
  | cons a t =>
    simp only [List.head?_cons, Option.some.injEq] at h
    rw [h]
    rfl

lemma tail_drop_eq (sp : List Pt) (i : Nat) : (sp.drop i).tail = sp.drop (i + 1) := by
  rw [List.tail_drop]

/-! ### Lemmas about the first-hit selection -/

lemma foldl_sel_mem :
    ∀ (l : List (ℚ × Pt)) (a : ℚ × Pt),
      l.foldl (fun b q => if q.1 < b.1 then q else b) a = a ∨
        l.foldl (fun b q => if q.1 < b.1 then q else b) a ∈ l := by
  intro l
  induction l with
  | nil => intro a; exact Or.inl rfl
  | cons h t ih =>
    intro a
    rw [List.foldl_cons]
    rcases ih (if h.1 < a.1 then h else a) with he | he
    · rw [he]
      by_cases hc : h.1 < a.1
      · rw [if_pos hc]; exact Or.inr (List.mem_cons_self _ _)
      · rw [if_neg hc]; exact Or.inl rfl
    · exact Or.inr (List.mem_cons_of_mem _ he)

lemma foldl_sel_le :
    ∀ (l : List (ℚ × Pt)) (a : ℚ × Pt),
      (l.foldl (fun b q => if q.1 < b.1 then q else b) a).1 ≤ a.1 ∧
        ∀ q ∈ l, (l.foldl (fun b q => if q.1 < b.1 then q else b) a).1 ≤ q.1 := by
  intro l
  induction l with
  | nil => intro a; exact ⟨le_refl _, by simp⟩
  | cons h t ih =>
    intro a
    rw [List.foldl_cons]
    obtain ⟨h1, h2⟩ := ih (if h.1 < a.1 then h else a)
    have hba : (if h.1 < a.1 then h else a).1 ≤ a.1 := by
      by_cases hc : h.1 < a.1
      · rw [if_pos hc]; exact le_of_lt hc
      · rw [if_neg hc]
    have hbh : (if h.1 < a.1 then h else a).1 ≤ h.1 := by
      by_cases hc : h.1 < a.1
      · rw [if_pos hc]
      · rw [if_neg hc]; exact le_of_not_lt hc
    refine ⟨le_trans h1 hba, ?_⟩
    intro q hq
    rcases List.mem_cons.mp hq with rfl | hq
    · exact le_trans h1 hbh
    · exact h2 q hq

lemma firstHit_spec {l : List (ℚ × Pt)} (h : l ≠ []) :
    ∃ tp, firstHit l = some tp ∧ tp ∈ l ∧ ∀ q ∈ l, tp.1 ≤ q.1 := by
  cases l with
  | nil => exact absurd rfl h
  | cons a t =>
    have hfh : firstHit (a :: t) =
        some (t.foldl (fun b q => if q.1 < b.1 then q else b) a) := rfl
    refine ⟨_, hfh, ?_, ?_⟩
    · rcases foldl_sel_mem t a with he | he
      · rw [he]; exact List.mem_cons_self _ _
      · exact List.mem_cons_of_mem _ he
    · intro q hq
      rcases List.mem_cons.mp hq with heq | hq
      · rw [heq]; exact (foldl_sel_le t a).1
      · exact (foldl_sel_le t a).2 q hq

/-! ### Lemmas about degenerate rings -/

lemma cross2_self (a : Pt) : cross2 a a = 0 := by
  unfold cross2; ring

lemma cross2_two_point {a b p q : Pt} (hp : p = a ∨ p = b) (hq : q = a ∨ q = b) :
    cross2 p q =
      (if p = a then cross2 a b else 0) - (if q = a then cross2 a b else 0) := by
  by_cases hpa : p = a
  · by_cases hqa : q = a
    · rw [if_pos hpa, if_pos hqa, hpa, hqa, cross2_self, sub_self]
    · have hqb : q = b := hq.resolve_left hqa
      rw [if_pos hpa, if_neg hqa, hpa, hqb, sub_zero]
  · have hpb : p = b := hp.resolve_left hpa
    by_cases hqa : q = a
    · rw [if_neg hpa, if_pos hqa, hpb, hqa, zero_sub]
      unfold cross2
      ring
    · rw [if_neg hpa, if_neg hqa, hpb, sub_self]
      have hqb : q = b := hq.resolve_left hqa
      rw [hqb, cross2_self]

lemma shoelace_two_point (a b : Pt) :
    ∀ (l : List Pt), (∀ p ∈ l, p = a ∨ p = b) →
      shoelaceSum l =
        (if l.headD d0 = a then cross2 a b else 0) -
          (if l.getLastD d0 = a then cross2 a b else 0) := by
  intro l
  induction l with
  | nil => intro _; simp [shoelaceSum]
  | cons p rest ih =>
    intro hmem
    cases rest with
    | nil =>
      have h1 : shoelaceSum [p] = 0 := rfl
      rw [h1]
      simp only [List.headD_cons, List.getLastD_cons, List.getLastD_nil, sub_self]
    | cons q t =>
      have hpq : shoelaceSum (p :: q :: t) = cross2 p q + shoelaceSum (q :: t) := rfl
      rw [hpq, ih (fun r hr => hmem r (List.mem_cons_of_mem _ hr)),
        cross2_two_point (hmem p (List.mem_cons_self _ _))
          (hmem q (List.mem_cons_of_mem _ (List.mem_cons_self _ _)))]
      simp only [List.headD_cons, List.getLastD_cons]
      ring

lemma linemerge_one (x : List Pt) : linemerge [x] = some x := rfl

lemma linemerge_two (x y : List Pt) : linemerge [x, y] = joinTwo x y := by
  show [y].foldlM joinTwo x = joinTwo x y
  cases h : joinTwo x y <;> simp [List.foldlM, h]

lemma linemerge_three (x y z : List Pt) :
    linemerge [x, y, z] = (joinTwo x y).bind (fun w => joinTwo w z) := by
  show [y, z].foldlM joinTwo x = (joinTwo x y).bind (fun w => joinTwo w z)
  cases h : joinTwo x y with
  | none => simp [List.foldlM, h]
  | some w =>
    cases h2 : joinTwo w z <;> simp [List.foldlM, h, h2]

lemma joinTwo_first {a b : List Pt} (h : a.getLast? = b.head?) :
    joinTwo a b = some (a ++ b.tail) := by
  unfold joinTwo
  rw [if_pos h]

lemma joinTwo_second {a b : List Pt} (h1 : a.getLast? ≠ b.head?)
    (h2 : a.getLast? = b.getLast?) :
    joinTwo a b = some (a ++ b.reverse.tail) := by
  unfold joinTwo
  rw [if_neg h1, if_pos h2]

lemma tail_getLast? {l : List Pt} (h : 2 ≤ l.length) :
    l.tail.getLast? = l.getLast? := by
  match l, h with
  | a :: b :: t, _ =>
    show (b :: t).getLast? = (a :: b :: t).getLast?
    rw [List.getLast?_cons_cons]

lemma ringClose_mem {l : List Pt} {p : Pt} (h : p ∈ ringClose l) : p ∈ l := by
  cases l with
  | nil => simp [ringClose] at h
  | cons a t =>
    simp only [ringClose] at h
    by_cases hc : (a :: t).getLast? = some a
    · rwa [if_pos hc] at h
    · rw [if_neg hc] at h
      rcases List.mem_append.mp h with hm | hm
      · exact hm
      · rw [List.mem_singleton.mp hm]
        exact List.mem_cons_self _ _

lemma ringClose_headD_getLastD (l : List Pt) :
    (ringClose l).headD d0 = (ringClose l).getLastD d0 := by
  cases l with
  | nil => rfl
  | cons a t =>
    simp only [ringClose]
    by_cases hc : (a :: t).getLast? = some a
    · rw [if_pos hc, List.getLastD_eq_getLast?, hc]
      rfl
    · rw [if_neg hc, List.getLastD_eq_getLast?, List.getLast?_concat]
      rw [List.cons_append]
      rfl

lemma polyArea_two_point (a b : Pt) (l : List Pt)
    (h : ∀ p ∈ l, p = a ∨ p = b) : polyArea l = 0 := by
  unfold polyArea
  rw [shoelace_two_point a b (ringClose l) (fun p hp => h p (ringClose_mem hp)),
    ringClose_headD_getLastD, sub_self, abs_zero, zero_div]

lemma getD_ne_of_ne {sp : List Pt} (hN : sp.Nodup) {i j : Nat}
    (hi : i < sp.length) (hj : j < sp.length) (hne : i ≠ j) :
    sp.getD i d0 ≠ sp.getD j d0 := by
  rw [List.getD_eq_getElem sp d0 hi, List.getD_eq_getElem sp d0 hj]
  intro heq
  exact hne (hN.getElem_inj_iff.mp heq)

lemma getLast?_eq_getD {sp : List Pt} (h : sp ≠ []) :
    sp.getLast? = some (sp.getD (sp.length - 1) d0) := by
  have hlen : sp.length - 1 < sp.length := by
    cases sp with
    | nil => exact absurd rfl h
    | cons a t => simp
  rw [List.getLast?_eq_getElem?, List.getElem?_eq_getElem hlen,
    List.getD_eq_getElem sp d0 hlen]

/-- Claim C2, amended: for a slope profile without duplicate vertices
and matched indices i1 < i2, the combiner classifies into the four
cases of the table using the coordinate comparisons bool1 and bool2
(equivalent to the index comparisons i1 = 0 and i2 = last index under
no duplicates), produces the combinable sets [F], [F, upper-remainder],
[lower-remainder, F] and [lower-remainder, F, upper-remainder], and
with the projection flag set the combined profile is their
concatenation with the shared endpoints merged. -/
theorem claim_c2_amended (sp fs : List Pt) (hN : sp.Nodup) (h2 : 2 ≤ sp.length)
    (hF : 2 ≤ fs.length)
    (h12 : (snapFS sp fs).2.1 < (snapFS sp fs).2.2) :
    ∃ out, combiner sp fs true = Except.ok out ∧
      out.fs2 = (snapFS sp fs).1 ∧
      out.i1 = (snapFS sp fs).2.1 ∧
      out.i2 = (snapFS sp fs).2.2 ∧
      out.pieces =
        (if (snapFS sp fs).2.1 = 0 then
          if (snapFS sp fs).2.2 = sp.length - 1 then [out.fs2]
          else [out.fs2, sp.drop (snapFS sp fs).2.2]
         else
          if (snapFS sp fs).2.2 = sp.length - 1 then
            [sp.take ((snapFS sp fs).2.1 + 1), out.fs2]
          else [sp.take ((snapFS sp fs).2.1 + 1), out.fs2,
            sp.drop (snapFS sp fs).2.2]) ∧
      out.combined =
        sp.take (snapFS sp fs).2.1 ++ (snapFS sp fs).1 ++
          sp.drop ((snapFS sp fs).2.2 + 1) := by
  have hspne : sp ≠ [] := by
    intro h
    rw [h] at h2
    simp at h2
  have hi1lt : (snapFS sp fs).2.1 < sp.length := by
    rw [snapFS_i1]
    exact (nearestIdx_spec _ sp hspne).1
  have hi2lt : (snapFS sp fs).2.2 < sp.length := by
    rw [snapFS_i2 hF]
    exact (nearestIdx_spec _ sp hspne).1
  have hfs2h := snapFS_head? sp fs hF
  have hfs2l := snapFS_getLast? sp fs hF
  have hfs2len := snapFS_length sp fs
  rcases hsnap : snapFS sp fs with ⟨fs2, i1, i2⟩
  rw [hsnap] at h12 hi1lt hi2lt hfs2h hfs2l hfs2len
  simp only at h12 hi1lt hi2lt hfs2h hfs2l hfs2len
  simp only [hsnap]
  have hfs2cons : fs2 = sp.getD i1 d0 :: fs2.tail := eq_cons_of_head? hfs2h
  have hfs2tne : fs2.tail ≠ [] := by
    have hl : fs2.tail.length = fs.length - 1 := by
      rw [List.length_tail, hfs2len]
    intro hemp
    rw [hemp] at hl
    simp at hl
    omega
  have hhead : sp.headD d0 = sp.getD 0 d0 := by cases sp <;> rfl
  have hlastd : sp.getLastD d0 = sp.getD (sp.length - 1) d0 := by
    rw [List.getLastD_eq_getLast?, List.getLast?_eq_getElem?,
      List.getD_eq_getElem?_getD]
  have hspl : sp.getLast? = some (sp.getD (sp.length - 1) d0) :=
    getLast?_eq_getD hspne
  have hb1 : (sp.getD i1 d0 = sp.headD d0) ↔ i1 = 0 := by
    rw [hhead, List.getD_eq_getElem sp d0 hi1lt,
      List.getD_eq_getElem sp d0 (by omega)]
    exact hN.getElem_inj_iff
  have hb2 : (sp.getD i2 d0 = sp.getLastD d0) ↔ i2 = sp.length - 1 := by
    rw [hlastd, List.getD_eq_getElem sp d0 hi2lt,
      List.getD_eq_getElem sp d0 (by omega)]
    exact hN.getElem_inj_iff
  simp only [combiner, hsnap]
  by_cases hc1 : i1 = 0 <;> by_cases hc2 : i2 = sp.length - 1
  · -- case [F]: both endpoints of the failure surface land on the ends
    rw [if_pos ⟨hb1.mpr hc1, hb2.mpr hc2⟩]
    have hr1 : sp.getLast? ≠ fs2.head? := by
      rw [hspl, hfs2h]
      intro h
      simp only [Option.some.injEq] at h
      exact getD_ne_of_ne hN (by omega) hi1lt (by omega) h
    have hr2 : sp.getLast? = fs2.getLast? := by
      rw [hspl, hfs2l, hc2]
    dsimp only
    rw [if_pos trivial, linemerge_one]
    dsimp only
    rw [joinTwo_second hr1 hr2]
    refine ⟨_, rfl, rfl, rfl, rfl, ?_, ?_⟩
    · rw [if_pos hc1, if_pos hc2]
    · have hdz : i2 + 1 = sp.length := by omega
      rw [hc1, hdz, List.drop_length, List.append_nil, List.take_zero,
        List.nil_append]
  · -- case [F, upper-remainder]
    rw [if_neg (fun h => hc2 (hb2.mp h.2)), if_pos (hb1.mpr hc1),
      splitAtPoint_spec hN (by omega) (by omega)]
    have hm : fs2.getLast? = (sp.drop i2).head? := by
      rw [hfs2l, drop_head? hi2lt]
    have hr1 : (sp.take (i2 + 1)).getLast? ≠ fs2.head? := by
      rw [take_getLast? hi2lt, hfs2h]
      intro h
      simp only [Option.some.injEq] at h
      exact getD_ne_of_ne hN hi2lt hi1lt (by omega) h
    have hr2 : (sp.take (i2 + 1)).getLast? = fs2.getLast? := by
      rw [take_getLast? hi2lt, hfs2l]
    dsimp only
    rw [if_pos trivial, linemerge_two, joinTwo_first hm]
    dsimp only
    rw [joinTwo_second hr1 hr2]
    refine ⟨_, rfl, rfl, rfl, rfl, ?_, ?_⟩
    · rw [if_pos hc1, if_neg hc2]
    · rw [tail_drop_eq, hc1, List.take_zero, List.nil_append]
  · -- case [lower-remainder, F]
    rw [if_neg (fun h => hc1 (hb1.mp h.1)), if_neg (fun h => hc1 (hb1.mp h)),
      if_pos (hb2.mpr hc2), splitAtPoint_spec hN (by omega) (by omega)]
    have hm : (sp.take (i1 + 1)).getLast? = fs2.head? := by
      rw [take_getLast? hi1lt, hfs2h]
    have hdl : (sp.drop i1).getLast? = sp.getLast? := by
      rw [List.getLast?_drop, if_neg (by omega : ¬sp.length ≤ i1)]
    have hr1 : (sp.drop i1).getLast? ≠ fs2.head? := by
      rw [hdl, hspl, hfs2h]
      intro h
      simp only [Option.some.injEq] at h
      exact getD_ne_of_ne hN (by omega) hi1lt (by omega) h
    have hr2 : (sp.drop i1).getLast? = fs2.getLast? := by
      rw [hdl, hspl, hfs2l, hc2]
    dsimp only
    rw [if_pos trivial, linemerge_two, joinTwo_first hm]
    dsimp only
    rw [joinTwo_second hr1 hr2]
    refine ⟨_, rfl, rfl, rfl, rfl, ?_, ?_⟩
    · rw [if_neg hc1, if_pos hc2]
    · have hdz : i2 + 1 = sp.length := by omega
      rw [hdz, List.drop_length, List.append_nil, List.take_succ]
      have hg : sp[i1]? = some (sp.getD i1 d0) := by
        rw [List.getElem?_eq_getElem hi1lt, List.getD_eq_getElem sp d0 hi1lt]
      rw [hg]
      rw [List.append_assoc]
      show sp.take i1 ++ ([sp.getD i1 d0] ++ fs2.tail) = sp.take i1 ++ fs2
      rw [List.singleton_append, ← hfs2cons]
  · -- case [lower-remainder, F, upper-remainder]
    rw [if_neg (fun h => hc1 (hb1.mp h.1)), if_neg (fun h => hc1 (hb1.mp h)),
      if_neg (fun h => hc2 (hb2.mp h)),
      splitAtPoint_spec hN (by omega) (by omega)]
    have hNd : (sp.drop i1).Nodup := (List.drop_sublist i1 sp).nodup hN
    have hdrop_getD : (sp.drop i1).getD (i2 - i1) d0 = sp.getD i2 d0 := by
      rw [List.getD_eq_getElem?_getD, List.getElem?_drop,
        List.getD_eq_getElem?_getD]
      have hidx : i1 + (i2 - i1) = i2 := by omega
      rw [hidx]
    have hsplit2 : splitAtPoint (sp.getD i2 d0) (sp.drop i1) =
        some ((sp.drop i1).take (i2 - i1 + 1), (sp.drop i1).drop (i2 - i1)) := by
      rw [← hdrop_getD]
      exact splitAtPoint_spec hNd (by omega)
        (by rw [List.length_drop]; omega)
    have hdd : (sp.drop i1).drop (i2 - i1) = sp.drop i2 := by
      rw [List.drop_drop]
      have hidx : i1 + (i2 - i1) = i2 := by omega
      rw [hidx]
    dsimp only
    rw [hsplit2, hdd]
    have hm1 : (sp.take (i1 + 1)).getLast? = fs2.head? := by
      rw [take_getLast? hi1lt, hfs2h]
    have hm2 : (sp.take (i1 + 1) ++ fs2.tail).getLast? = (sp.drop i2).head? := by
      rw [List.getLast?_append, tail_getLast? (by omega), hfs2l,
        drop_head? hi2lt]
      rfl
    have htl : ((sp.drop i1).take (i2 - i1 + 1)).getLast? =
        some (sp.getD i2 d0) := by
      rw [take_getLast? (by rw [List.length_drop]; omega), hdrop_getD]
    have hr1 : ((sp.drop i1).take (i2 - i1 + 1)).getLast? ≠ fs2.head? := by
      rw [htl, hfs2h]
      intro h
      simp only [Option.some.injEq] at h
      exact getD_ne_of_ne hN hi2lt hi1lt (by omega) h
    have hr2 : ((sp.drop i1).take (i2 - i1 + 1)).getLast? = fs2.getLast? := by
      rw [htl, hfs2l]
    dsimp only
    rw [if_pos trivial, linemerge_three, joinTwo_first hm1, Option.some_bind,
      joinTwo_first hm2]
    dsimp only
    rw [joinTwo_second hr1 hr2]
    refine ⟨_, rfl, rfl, rfl, rfl, ?_, ?_⟩
    · rw [if_neg hc1, if_neg hc2]
    · have hg : sp[i1]? = some (sp.getD i1 d0) := by
        rw [List.getElem?_eq_getElem hi1lt, List.getD_eq_getElem sp d0 hi1lt]
      rw [tail_drop_eq, List.take_succ, hg]
      simp only [Option.toList_some, List.append_assoc, List.singleton_append]
      conv_rhs => rw [hfs2cons, List.cons_append]
      rw [List.cons_append]

/-! ### Claim theorems -/

/-- Claim C3: for each endpoint of the failure surface the snap step
returns the index of a profile vertex whose (squared) Euclidean distance
to that endpoint is minimal, every strictly earlier index lies strictly
farther away (lowest-index tie breaking), and the endpoint is
overwritten with the exact coordinates of the matched profile vertex.
The result is a pure function of its inputs, hence deterministic. -/
theorem claim_c3_snap_nearest (sp fs : List Pt) (hsp : sp ≠ [])
    (hF : 2 ≤ fs.length) :
    (snapFS sp fs).2.1 < sp.length ∧
    (snapFS sp fs).2.2 < sp.length ∧
    (∀ j, j < sp.length →
      dist2 (fs.headD d0).1 (fs.headD d0).2
          (sp.getD (snapFS sp fs).2.1 d0).1 (sp.getD (snapFS sp fs).2.1 d0).2 ≤
        dist2 (fs.headD d0).1 (fs.headD d0).2
          (sp.getD j d0).1 (sp.getD j d0).2) ∧
    (∀ j, j < (snapFS sp fs).2.1 →
      dist2 (fs.headD d0).1 (fs.headD d0).2
          (sp.getD (snapFS sp fs).2.1 d0).1 (sp.getD (snapFS sp fs).2.1 d0).2 <
        dist2 (fs.headD d0).1 (fs.headD d0).2
          (sp.getD j d0).1 (sp.getD j d0).2) ∧
    (∀ j, j < sp.length →
      dist2 (fs.getLastD d0).1 (fs.getLastD d0).2
          (sp.getD (snapFS sp fs).2.2 d0).1 (sp.getD (snapFS sp fs).2.2 d0).2 ≤
        dist2 (fs.getLastD d0).1 (fs.getLastD d0).2
          (sp.getD j d0).1 (sp.getD j d0).2) ∧
    (∀ j, j < (snapFS sp fs).2.2 →
      dist2 (fs.getLastD d0).1 (fs.getLastD d0).2
          (sp.getD (snapFS sp fs).2.2 d0).1 (sp.getD (snapFS sp fs).2.2 d0).2 <
        dist2 (fs.getLastD d0).1 (fs.getLastD d0).2
          (sp.getD j d0).1 (sp.getD j d0).2) ∧
    (snapFS sp fs).1[0]? = some (sp.getD ((snapFS sp fs).2.1) d0) ∧
    (snapFS sp fs).1[fs.length - 1]? = some (sp.getD ((snapFS sp fs).2.2) d0) := by
  have h1 := nearestIdx_spec (fs.headD d0) sp hsp
  have h2 := nearestIdx_spec (fs.getLastD d0) sp hsp
  rw [← snapFS_i1 sp fs] at h1
  rw [← snapFS_i2 hF] at h2
  exact ⟨h1.1, h2.1, h1.2.1, h1.2.2, h2.2.1, h2.2.2,
    snapFS_first sp fs hF, snapFS_last sp fs (by omega)⟩

/-- Witness for C3 at a concrete profile and failure surface. -/
theorem claim_c3_snap_nearest_witness :
    ([(0, 0), (10, 0)] : List Pt) ≠ [] ∧ 2 ≤ ([(1, 1), (9, 1)] : List Pt).length ∧
    ((snapFS [(0, 0), (10, 0)] [(1, 1), (9, 1)]).2.1 < 2 ∧
      (snapFS [(0, 0), (10, 0)] [(1, 1), (9, 1)]).2.2 < 2) := by
  refine ⟨by simp, by simp, ?_⟩
  have h := claim_c3_snap_nearest [(0, 0), (10, 0)] [(1, 1), (9, 1)]
    (by simp) (by simp)
  exact ⟨h.1, h.2.1⟩

/-- Claim C9: the snap step leaves every interior vertex of the failure
surface unchanged (only the first and last vertices are overwritten,
with matched profile vertex coordinates), and it preserves the length.
The profile itself is an input the functional pipeline never rewrites:
every later stage of the combiner reads sp as passed in. -/
theorem claim_c9_frame (sp fs : List Pt) (hF : 2 ≤ fs.length) :
    (snapFS sp fs).1.length = fs.length ∧
    (∀ i, 0 < i → i + 1 < fs.length → (snapFS sp fs).1[i]? = fs[i]?) ∧
    (snapFS sp fs).1[0]? = some (sp.getD ((snapFS sp fs).2.1) d0) ∧
    (snapFS sp fs).1[fs.length - 1]? = some (sp.getD ((snapFS sp fs).2.2) d0) := by
  exact ⟨snapFS_length sp fs,
    fun i h0 h1 => snapFS_interior sp fs h0 h1,
    snapFS_first sp fs hF, snapFS_last sp fs (by omega)⟩

/-- Witness for C9 at a concrete three-vertex failure surface: the
interior vertex survives the snap unchanged. -/
theorem claim_c9_frame_witness :
    2 ≤ ([(1, 1), (5, 5), (9, 1)] : List Pt).length ∧
    (snapFS [(0, 0), (10, 0)] [(1, 1), (5, 5), (9, 1)]).1[1]? =
      (([(1, 1), (5, 5), (9, 1)] : List Pt))[1]? := by
  refine ⟨by simp, ?_⟩
  exact (claim_c9_frame [(0, 0), (10, 0)] [(1, 1), (5, 5), (9, 1)]
    (by simp)).2.1 1 (by omega) (by simp)

lemma everyOther_length : ∀ l : List ℚ, (everyOther l).length = (l.length + 1) / 2 := by
  intro l
  induction l using everyOther.induct with
  | case1 => rfl
  | case2 a => simp [everyOther]
  | case3 a b t ih =>
    show (a :: everyOther t).length = ((t.length + 2) + 1) / 2
    rw [List.length_cons, ih]
    omega

/-- Claim C10: on an odd count 2k+1 of numeric values the parser returns
an x list of length k+1 and a y list of length k, raising no error (the
function is total), and the downstream zip pairing keeps only k points,
silently dropping the unpaired trailing value. -/
theorem claim_c10_odd_parse (k : Nat) (l : List ℚ) (h : l.length = 2 * k + 1) :
    (textarea_to_list l).1.length = k + 1 ∧
    (textarea_to_list l).2.length = k ∧
    (merge (textarea_to_list l).1 (textarea_to_list l).2).length = k := by
  unfold textarea_to_list merge
  have h1 := everyOther_length l
  have h2 := everyOther_length l.tail
  rw [List.length_tail] at h2
  rw [h] at h1 h2
  have e1 : (everyOther l).length = k + 1 := by omega
  have e2 : (everyOther l.tail).length = k := by omega
  refine ⟨e1, e2, ?_⟩
  rw [List.length_zip, e1, e2]
  omega

/-- Witness for C10 on the three-value input [1, 2, 3] (k = 1). -/
theorem claim_c10_odd_parse_witness :
    ([1, 2, 3] : List ℚ).length = 2 * 1 + 1 ∧
    ((textarea_to_list [1, 2, 3]).1.length = 1 + 1 ∧
      (textarea_to_list [1, 2, 3]).2.length = 1 ∧
      (merge (textarea_to_list [1, 2, 3]).1 (textarea_to_list [1, 2, 3]).2).length = 1) :=
  ⟨by simp, claim_c10_odd_parse 1 [1, 2, 3] (by simp)⟩

/-- Claim C1: when the run-out ray meets the combined profile in more
than one intersection point, the projector selects the hit with the
smallest parametric distance along the ray from its origin (the first
hit; the earliest segment on exact ties), and the catch capacity ring
is built from exactly that point. -/
theorem claim_c1_first_hit (C : List Pt) (bund_height : ℚ) (bPts : List Pt)
    (O : Pt) (c s L : ℚ)
    (h : 1 < (rayHits O (O.1 + L * c, O.2 + L * s) C).length) :
    ∃ tp, firstHit (rayHits O (O.1 + L * c, O.2 + L * s) C) = some tp ∧
      tp ∈ rayHits O (O.1 + L * c, O.2 + L * s) C ∧
      (∀ q ∈ rayHits O (O.1 + L * c, O.2 + L * s) C, tp.1 ≤ q.1) ∧
      runoutProjector C bund_height bPts O c s L =
        Except.ok (buildCatchRing C tp.2 bund_height bPts O) := by
  have hne : rayHits O (O.1 + L * c, O.2 + L * s) C ≠ [] := by
    intro he
    rw [he] at h
    simp at h
  obtain ⟨tp, h1, h2, h3⟩ := firstHit_spec hne
  refine ⟨tp, h1, h2, h3, ?_⟩
  simp only [runoutProjector]
  rw [h1]

/-- Witness for C1: a ray along the x axis through a zigzag profile
crossing it twice; the selected hit is the nearer one. -/
theorem claim_c1_first_hit_witness :
    1 < (rayHits (0, 0) ((0 : ℚ) + 1000 * 1, (0 : ℚ) + 1000 * 0)
        [(1, -1), (2, 1), (3, -1)]).length ∧
    (∃ tp, firstHit (rayHits (0, 0) ((0 : ℚ) + 1000 * 1, (0 : ℚ) + 1000 * 0)
        [(1, -1), (2, 1), (3, -1)]) = some tp ∧
      tp ∈ rayHits (0, 0) ((0 : ℚ) + 1000 * 1, (0 : ℚ) + 1000 * 0)
        [(1, -1), (2, 1), (3, -1)] ∧
      (∀ q ∈ rayHits (0, 0) ((0 : ℚ) + 1000 * 1, (0 : ℚ) + 1000 * 0)
        [(1, -1), (2, 1), (3, -1)], tp.1 ≤ q.1) ∧
      runoutProjector [(1, -1), (2, 1), (3, -1)] 0 [(0, 0)] (0, 0) 1 0 1000 =
        Except.ok (buildCatchRing [(1, -1), (2, 1), (3, -1)] tp.2 0 [(0, 0)]
          (0, 0))) := by
  refine ⟨?_, claim_c1_first_hit [(1, -1), (2, 1), (3, -1)] 0 [(0, 0)] (0, 0)
    1 0 1000 ?_⟩ <;>
    norm_num [rayHits, segInter, cross2, List.filterMap_cons]

/-- Claim C5: with no ray and profile intersection point at all (in
particular in the degenerate colinear case) the projector fails with
NoInterceptError, the catch capacity polygon is omitted by the stage
wrapper, and being a total function the pipeline cannot crash. -/
theorem claim_c5_no_intercept (C : List Pt) (bund_height : ℚ) (bPts : List Pt)
    (O : Pt) (c s L : ℚ)
    (h : rayHits O (O.1 + L * c, O.2 + L * s) C = []) :
    runoutProjector C bund_height bPts O c s L =
      Except.error RunoutErr.NoInterceptError ∧
    catchStage C bund_height bPts O c s L = none := by
  have hp : runoutProjector C bund_height bPts O c s L =
      Except.error RunoutErr.NoInterceptError := by
    simp only [runoutProjector]
    rw [h]
    rfl
  refine ⟨hp, ?_⟩
  unfold catchStage
  rw [hp]
  rfl

/-- Witness for C5 on the worked degenerate scenario: unbunded toe at
the origin, run-out at 45 degrees (equal direction components; the
common scale of the direction pair does not affect colinearity), and
the straight-line profile from (0, 0) to (20, 20); ray and profile are
colinear, no intersection point exists. -/
theorem claim_c5_no_intercept_witness :
    rayHits (0, 0) ((0 : ℚ) + 1000 * (7 / 10), (0 : ℚ) + 1000 * (7 / 10))
      [(0, 0), (20, 20)] = [] ∧
    (runoutProjector [(0, 0), (20, 20)] 0 [(-18, 0)] (0, 0) (7 / 10) (7 / 10)
        1000 = Except.error RunoutErr.NoInterceptError ∧
      catchStage [(0, 0), (20, 20)] 0 [(-18, 0)] (0, 0) (7 / 10) (7 / 10)
        1000 = none) := by
  refine ⟨?_, claim_c5_no_intercept [(0, 0), (20, 20)] 0 [(-18, 0)] (0, 0)
    (7 / 10) (7 / 10) 1000 ?_⟩ <;>
    norm_num [rayHits, segInter, cross2, List.filterMap_cons]

/-- Claim C6: worked failure-volume scenario.  With the profile
[(0,0), (10,0), (10,10)] and the hypotenuse failure surface
[(0,0), (10,10)], the failure volume ring is the two legs plus the
hypotenuse (closed), its area is 50, and with swell factor 1.3 the
reported failure volume is 65. -/
theorem claim_c6_worked_failure_volume :
    (combiner [(0, 0), (10, 0), (10, 10)] [(0, 0), (10, 10)] true).map
        (fun o => o.fvRing) =
      Except.ok [(0, 0), (10, 0), (10, 10), (0, 0)] ∧
    (combiner [(0, 0), (10, 0), (10, 10)] [(0, 0), (10, 10)] true).map
        (fun o => polyArea o.fvRing) = Except.ok 50 ∧
    (combiner [(0, 0), (10, 0), (10, 10)] [(0, 0), (10, 10)] true).map
        (fun o => polyArea o.fvRing * (13 / 10)) = Except.ok 65 := by
  refine ⟨?_, ?_, ?_⟩ <;>
    norm_num [combiner, snapFS, nearestIdx, minimum_distance, dist2, listMin,
      rmin, idxOf, splitAtPoint, findPt, joinTwo, linemerge, d0, Except.map,
      polyArea, ringClose, shoelaceSum, cross2]

/-- Counterexample to claim C7 as stated: with bund height 0 and
standoff 18 on an unbunded left-side manual profile with slope toe
(0, 0), the run-out origin (and the degenerate single-point bund) sits
at (-18, 0), the standoff point, not at the slope toe (0, 0).  The
value of the tangent parameter is irrelevant at height 0. -/
theorem claim_c7_origin_counterexample :
    runoutOrigin (3 / 4) 18 0 Direction.left GeomMode.manual (0, 0) =
      (-18, 0) ∧
    bundPts (3 / 4) 18 0 Direction.left GeomMode.manual (0, 0) = [(-18, 0)] ∧
    ((-18 : ℚ), (0 : ℚ)) ≠ ((0 : ℚ), (0 : ℚ)) := by
  refine ⟨?_, ?_, by norm_num⟩ <;>
    norm_num [runoutOrigin, bundPts, rightManual, d0]

/-- Claim C7, amended: the run-out origin is the bund apex (the
standoff point shifted by half the bund base width toward the slope and
raised by the bund height) when the bund height is positive, and the
standoff point at toe elevation otherwise; with bund height 0 the bund
degenerates to that single standoff point, which coincides with the
slope toe only when the standoff is zero. -/
theorem claim_c7_origin_amended (t37 standoff bund_height : ℚ)
    (dir : Direction) (mode : GeomMode) (sp0 : Pt) :
    runoutOrigin t37 standoff bund_height dir mode sp0 =
      (if 0 < bund_height then
        ((if rightManual dir mode then
            standoff + sp0.1 - 1 / 2 * (2 * bund_height / t37)
          else -standoff + sp0.1 + 1 / 2 * (2 * bund_height / t37)),
          sp0.2 + bund_height)
       else
        ((if rightManual dir mode then standoff + sp0.1 else -standoff + sp0.1),
          sp0.2)) ∧
    (bund_height ≤ 0 →
      bundPts t37 standoff bund_height dir mode sp0 =
        [((if rightManual dir mode then standoff + sp0.1
           else -standoff + sp0.1), sp0.2)]) := by
  constructor
  · by_cases hb : 0 < bund_height <;> by_cases hr : rightManual dir mode <;>
      simp [runoutOrigin, bundPts, hb, hr, d0]
  · intro hle
    have hnb : ¬0 < bund_height := not_lt.mpr hle
    by_cases hr : rightManual dir mode <;> simp [bundPts, hnb, hr]

/-- Witness for the amended claim C7 at height 0, standoff 18. -/
theorem claim_c7_origin_amended_witness :
    (0 : ℚ) ≤ 0 ∧
    bundPts (3 / 4) 18 0 Direction.left GeomMode.manual (0, 0) =
      [((if rightManual Direction.left GeomMode.manual then 18 + ((0, 0) : Pt).1
         else -18 + ((0, 0) : Pt).1), ((0, 0) : Pt).2)] :=
  ⟨le_refl 0,
    (claim_c7_origin_amended (3 / 4) 18 0 Direction.left GeomMode.manual
      (0, 0)).2 (le_refl 0)⟩

/-- Counterexample to claim C8 as stated: the asymmetric bowtie ring
[(0,0), (4,4), (4,0), (0,2)] is self-intersecting, yet the area
computation returns 4, not 0 (the two lobes have different signed
areas, so the shoelace cancellation is only partial). -/
theorem claim_c8_area_counterexample :
    ringSelfIntersects [(0, 0), (4, 4), (4, 0), (0, 2)] = true ∧
    polyArea [(0, 0), (4, 4), (4, 0), (0, 2)] = 4 ∧ (4 : ℚ) ≠ 0 := by
  refine ⟨?_, ?_, by norm_num⟩
  · norm_num [ringSelfIntersects, segsOf, ringClose, segInter, cross2, d0,
      List.range, List.range.loop, List.any]
  · norm_num [polyArea, ringClose, shoelaceSum, cross2]

/-- Claim C8, amended: the area computation is a total function (it
cannot fail on any ring), and every ring with fewer than three distinct
vertices has area 0; a self-intersecting ring does not fail either, but
its area may be a nonzero partial-cancellation value. -/
theorem claim_c8_area_amended (l : List Pt) (h : l.dedup.length < 3) :
    polyArea l = 0 := by
  have hsub : ∀ p ∈ l, p ∈ l.dedup := fun p hp => List.mem_dedup.mpr hp
  rcases hd : l.dedup with _ | ⟨a, _ | ⟨b, _ | ⟨c, r⟩⟩⟩
  · rw [hd] at hsub
    have hl : l = [] := by
      cases l with
      | nil => rfl
      | cons x t => exact absurd (hsub x (List.mem_cons_self x t)) (by simp)
    rw [hl]
    norm_num [polyArea, ringClose, shoelaceSum]
  · rw [hd] at hsub
    exact polyArea_two_point a a l
      (fun p hp => Or.inl (List.mem_singleton.mp (hsub p hp)))
  · rw [hd] at hsub
    refine polyArea_two_point a b l (fun p hp => ?_)
    rcases List.mem_cons.mp (hsub p hp) with h1 | h1
    · exact Or.inl h1
    · exact Or.inr (List.mem_singleton.mp h1)
  · rw [hd] at h
    simp only [List.length_cons] at h
    omega

/-- Witness for the amended claim C8 on a two-vertex degenerate ring. -/
theorem claim_c8_area_amended_witness :
    (([(0, 0), (1, 1)] : List Pt).dedup.length < 3) ∧
    polyArea [(0, 0), (1, 1)] = 0 := by
  have hd : (([(0, 0), (1, 1)] : List Pt)).dedup = [(0, 0), (1, 1)] :=
    List.dedup_eq_self.mpr (by norm_num [List.nodup_cons])
  refine ⟨by rw [hd]; norm_num, claim_c8_area_amended _ (by rw [hd]; norm_num)⟩

/-- Counterexample to claim C2 as stated: with the degenerate profile
[(0,0), (10,10), (0,5), (10,10)], whose last vertex coordinates also
occur at index 1, and failure surface [(0,0), (10,10)], the snap
matches indices i1 = 0 and i2 = 1; i2 is not the last index (3), so the
claimed classification demands the two-element combinable set
[F, upper-remainder], but the code compares coordinates, finds bool2
true and produces the one-element set [F]. -/
theorem claim_c2_counterexample :
    (snapFS [(0, 0), (10, 10), (0, 5), (10, 10)] [(0, 0), (10, 10)]).2.1 = 0 ∧
    (snapFS [(0, 0), (10, 10), (0, 5), (10, 10)] [(0, 0), (10, 10)]).2.2 = 1 ∧
    (1 : Nat) ≠ ([(0, 0), (10, 10), (0, 5), (10, 10)] : List Pt).length - 1 ∧
    (combiner [(0, 0), (10, 10), (0, 5), (10, 10)] [(0, 0), (10, 10)] true).map
      (fun o => o.pieces) = Except.ok [[(0, 0), (10, 10)]] ∧
    (∀ up : List Pt,
      ([[(0, 0), (10, 10)]] : List (List Pt)) ≠ [[(0, 0), (10, 10)], up]) := by
  refine ⟨?_, ?_, by simp, ?_, fun up h => by simp at h⟩ <;>
    norm_num [combiner, snapFS, nearestIdx, minimum_distance, dist2, listMin,
      rmin, idxOf, splitAtPoint, findPt, joinTwo, linemerge, d0, Except.map]

/-- Witness for the amended claim C2 on a five-vertex profile with the
failure surface spanning interior vertices 1 and 3 (the fourth table
case). -/
theorem claim_c2_amended_witness :
    ∃ out,
      combiner [(0, 0), (1, 1), (2, 3), (3, 6), (4, 10)] [(1, 1), (3, 6)]
        true = Except.ok out ∧
      out.fs2 = (snapFS [(0, 0), (1, 1), (2, 3), (3, 6), (4, 10)]
        [(1, 1), (3, 6)]).1 ∧
      out.i1 = (snapFS [(0, 0), (1, 1), (2, 3), (3, 6), (4, 10)]
        [(1, 1), (3, 6)]).2.1 ∧
      out.i2 = (snapFS [(0, 0), (1, 1), (2, 3), (3, 6), (4, 10)]
        [(1, 1), (3, 6)]).2.2 ∧
      out.pieces =
        (if (snapFS [(0, 0), (1, 1), (2, 3), (3, 6), (4, 10)]
            [(1, 1), (3, 6)]).2.1 = 0 then
          if (snapFS [(0, 0), (1, 1), (2, 3), (3, 6), (4, 10)]
              [(1, 1), (3, 6)]).2.2 =
              ([(0, 0), (1, 1), (2, 3), (3, 6), (4, 10)] : List Pt).length - 1
          then [out.fs2]
          else [out.fs2, ([(0, 0), (1, 1), (2, 3), (3, 6), (4, 10)] :
            List Pt).drop (snapFS [(0, 0), (1, 1), (2, 3), (3, 6), (4, 10)]
              [(1, 1), (3, 6)]).2.2]
         else
          if (snapFS [(0, 0), (1, 1), (2, 3), (3, 6), (4, 10)]
              [(1, 1), (3, 6)]).2.2 =
              ([(0, 0), (1, 1), (2, 3), (3, 6), (4, 10)] : List Pt).length - 1
          then [([(0, 0), (1, 1), (2, 3), (3, 6), (4, 10)] : List Pt).take
            ((snapFS [(0, 0), (1, 1), (2, 3), (3, 6), (4, 10)]
              [(1, 1), (3, 6)]).2.1 + 1), out.fs2]
          else [([(0, 0), (1, 1), (2, 3), (3, 6), (4, 10)] : List Pt).take
            ((snapFS [(0, 0), (1, 1), (2, 3), (3, 6), (4, 10)]
              [(1, 1), (3, 6)]).2.1 + 1), out.fs2,
            ([(0, 0), (1, 1), (2, 3), (3, 6), (4, 10)] : List Pt).drop
              (snapFS [(0, 0), (1, 1), (2, 3), (3, 6), (4, 10)]
                [(1, 1), (3, 6)]).2.2]) ∧
      out.combined =
        ([(0, 0), (1, 1), (2, 3), (3, 6), (4, 10)] : List Pt).take
            (snapFS [(0, 0), (1, 1), (2, 3), (3, 6), (4, 10)]
              [(1, 1), (3, 6)]).2.1 ++
          (snapFS [(0, 0), (1, 1), (2, 3), (3, 6), (4, 10)]
            [(1, 1), (3, 6)]).1 ++
          ([(0, 0), (1, 1), (2, 3), (3, 6), (4, 10)] : List Pt).drop
            ((snapFS [(0, 0), (1, 1), (2, 3), (3, 6), (4, 10)]
              [(1, 1), (3, 6)]).2.2 + 1) := by
  refine claim_c2_amended [(0, 0), (1, 1), (2, 3), (3, 6), (4, 10)]
    [(1, 1), (3, 6)] ?_ (by simp) (by simp) ?_
  · norm_num [List.nodup_cons, Prod.ext_iff]
  · norm_num [snapFS, nearestIdx, minimum_distance, dist2, listMin, rmin,
      idxOf, d0]

end RunoutCalc
